import Mathlib

/-!
# Verification of the AquaBle BLE protocol core

Shallow embedding of the Python sources under `src/aquable/` (command
encoder, status decoders, doser multi-step configuration, command
executor, connection registry) together with proofs of the spec's
testable properties.

Bytes are modelled as `Nat` values; code paths that raise Python
exceptions are modelled with `Except String`.  Components whose source
file is absent from the provided tree (`base_device.py`,
`commands_model.py`) are modelled from the spec and flagged as such in
their doc comments.
-/

namespace AquaBle

/-! ## Protocol codec (`src/aquable/commands/encoder.py`) -/

/-- A message id pair is valid when both bytes fit in one byte and neither
byte is the reserved value 90 (0x5A); mirrors the validation at the top of
`next_message_id`. -/
def validMsgId (p : Nat × Nat) : Prop :=
  p.1 ≤ 255 ∧ p.2 ≤ 255 ∧ p.1 ≠ 90 ∧ p.2 ≠ 90

instance : DecidablePred validMsgId := fun _ => by
  unfold validMsgId; infer_instance

/-- The wrap/skip successor on message id pairs: the branch structure of
`next_message_id` (encoder.py lines 36-52), without the input validation. -/
def nextMsgIdTotal (p : Nat × Nat) : Nat × Nat :=
  let hi := p.1
  let lo := p.2
  if lo = 255 then
    if hi = 255 then (0, 1)
    else if hi = 89 then (91, 0)
    else (hi + 1, 0)
  else
    if lo = 89 then (hi, 91)
    else (hi, lo + 1)

/-- `next_message_id` (encoder.py lines 8-52): validates the input pair and
returns the successor, skipping the reserved byte 90 in both positions;
a `ValueError` is modelled as `Except.error`. -/
def next_message_id (p : Nat × Nat) : Except String (Nat × Nat) :=
  if p.1 > 255 ∨ p.2 > 255 then
    .error "Message ID bytes must be in range 0-255"
  else if p.1 = 90 ∨ p.2 = 90 then
    .error "Message ID cannot contain reserved value 90 (0x5A)"
  else
    .ok (nextMsgIdTotal p)

/-- `reset_message_id` (encoder.py lines 55-61). -/
def reset_message_id : Nat × Nat := (0, 1)

/-- `_calculate_checksum` (encoder.py lines 82-94) without its length
assertion: XOR of all bytes from index 1 onward.  The `assert` on the
frame length is modelled at the call site in `_encode_uart_command`. -/
def xorFromIndex1 (bs : List Nat) : Nat :=
  (bs.drop 1).foldl (fun acc b => acc ^^^ b) 0

/-- Parameter sanitization inside `_encode_uart_command` (encoder.py
line 319): any byte equal to 90 (0x5A) is replaced with 89 (0x59). -/
def sanitizeByte (v : Nat) : Nat :=
  if v = 0x5A then 0x59 else v

/-- The frame bytes before the checksum is appended: header plus sanitized
parameters (encoder.py lines 321-322). -/
def frameCore (cmd_id mode : Nat) (p : Nat × Nat) (params : List Nat) : List Nat :=
  [cmd_id, 0x01, params.length + 5, p.1, p.2, mode] ++ params.map sanitizeByte

/-- `_encode_uart_command` (encoder.py lines 313-331).  The Python function
recurses (unboundedly, in the source) with the next message id whenever the
computed checksum equals 0x5A; the recursion is embedded with explicit fuel
(fuel 3 is proven sufficient for every valid input).  A `bytearray` range
error (any byte outside 0-255) and the length assertion inside
`_calculate_checksum` are modelled as errors. -/
def _encode_uart_command (fuel : Nat) (cmd_id mode : Nat) (msg_id : Nat × Nat)
    (params : List Nat) : Except String (List Nat) :=
  match fuel with
  | 0 => .error "recursion limit"
  | fuel + 1 =>
    let command := frameCore cmd_id mode msg_id params
    if ¬ command.all (· ≤ 255) then .error "bytes must be in range(0, 256)"
    else if command.length < 7 then .error "assert len failed"
    else
      let verification_byte := xorFromIndex1 command
      if verification_byte = 0x5A then
        match next_message_id msg_id with
        | .error e => .error e
        | .ok new_id => _encode_uart_command fuel cmd_id mode new_id params
      else .ok (command ++ [verification_byte])

/-- Fuel used by all frame builders; `encode_fuel_sufficient` facts below
show the encoder never exhausts it. -/
def uartFuel : Nat := 3

/-- A device timestamp as produced by `_encode_timestamp`
(encoder.py lines 97-107): the six byte values derived from a
`datetime.datetime` (`datetime.now()` is an effect, so the timestamp is an
explicit argument here). -/
structure DeviceTime where
  yearOffset : Nat   -- ts.year - 2000
  month : Nat
  isoweekday : Nat
  hour : Nat
  minute : Nat
  second : Nat
deriving DecidableEq, Repr

/-- `_encode_timestamp` (encoder.py lines 97-107). -/
def _encode_timestamp (ts : DeviceTime) : List Nat :=
  [ts.yearOffset, ts.month, ts.isoweekday, ts.hour, ts.minute, ts.second]

/-- `create_set_time_command` (encoder.py lines 110-112), with the
`datetime.now()` value passed explicitly. -/
def create_set_time_command (msg_id : Nat × Nat) (ts : DeviceTime) :
    Except String (List Nat) :=
  _encode_uart_command uartFuel 90 9 msg_id (_encode_timestamp ts)

/-- `create_manual_setting_command` (encoder.py lines 115-119). -/
def create_manual_setting_command (msg_id : Nat × Nat) (color brightness_level : Nat) :
    Except String (List Nat) :=
  _encode_uart_command uartFuel 90 7 msg_id [color, brightness_level]

/-- `create_reset_auto_settings_command` (encoder.py lines 173-175). -/
def create_reset_auto_settings_command (msg_id : Nat × Nat) :
    Except String (List Nat) :=
  _encode_uart_command uartFuel 90 5 msg_id [5, 255, 255]

/-- `create_switch_to_auto_mode_command` (encoder.py lines 178-180). -/
def create_switch_to_auto_mode_command (msg_id : Nat × Nat) :
    Except String (List Nat) :=
  _encode_uart_command uartFuel 90 5 msg_id [18, 255, 255]

/-- `create_handshake_command` (encoder.py lines 334-336): the 0x5A /
mode 0x04 status request. -/
def create_handshake_command (msg_id : Nat × Nat) : Except String (List Nat) :=
  _encode_uart_command uartFuel 0x5A 0x04 msg_id [0x01]

/-- `create_prepare_command` (encoder.py lines 339-343). -/
def create_prepare_command (msg_id : Nat × Nat) (stage : Nat) :
    Except String (List Nat) :=
  if stage ≠ 0x04 ∧ stage ≠ 0x05 then .error "stage must be 0x04 or 0x05"
  else _encode_uart_command uartFuel 0xA5 0x04 msg_id [stage]

/-- `create_head_select_command` (encoder.py lines 346-356). -/
def create_head_select_command (msg_id : Nat × Nat) (head_index : Nat)
    (flag1 : Nat := 0x00) (flag2 : Nat := 0x01) : Except String (List Nat) :=
  if ¬ head_index ≤ 0x03 then .error "head_index must be between 0 and 3"
  else _encode_uart_command uartFuel 0xA5 0x20 msg_id [head_index, flag1, flag2]

/-- `create_head_schedule_command` (encoder.py lines 451-470). -/
def create_head_schedule_command (msg_id : Nat × Nat) (head_index hour minute : Nat)
    (reserve1 : Nat := 0x00) (reserve2 : Nat := 0x00) : Except String (List Nat) :=
  if ¬ hour ≤ 23 then .error "hour must be 0-23"
  else if ¬ minute ≤ 59 then .error "minute must be 0-59"
  else _encode_uart_command uartFuel 0xA5 0x15 msg_id
    [head_index, reserve1, hour, minute, reserve2, 0x00]

/-- `create_head_dose_command` (encoder.py lines 393-448): validates the
volume (0-65535 tenths of mL, so the input is an `Int` to model Python's
signed argument) and the 7-bit weekday mask, then uses the legacy 1-byte
volume field with mode 0x1B for volumes up to 255 and a 2-byte big-endian
field with mode 0x1C above that. -/
def create_head_dose_command (msg_id : Nat × Nat) (head_index : Nat)
    (volume_tenths_ml : Int) (weekday_mask : Nat)
    (schedule_mode : Nat := 0x01) (repeat_flag : Nat := 0x01)
    (reserved : Nat := 0x00) : Except String (List Nat) :=
  if ¬ (0 ≤ volume_tenths_ml ∧ volume_tenths_ml ≤ 0xFFFF) then
    .error "volume_tenths_ml must fit in two bytes (0-65535)"
  else if ¬ weekday_mask ≤ 0x7F then
    .error "weekday_mask must be a 7-bit value"
  else
    let v := volume_tenths_ml.toNat
    if v ≤ 0xFF then
      _encode_uart_command uartFuel 0xA5 0x1B msg_id
        [head_index, weekday_mask, schedule_mode, repeat_flag, reserved, v]
    else
      let volume_high := (v >>> 8) &&& 0xFF
      let volume_low := v &&& 0xFF
      _encode_uart_command uartFuel 0xA5 0x1C msg_id
        [head_index, weekday_mask, schedule_mode, repeat_flag, reserved,
          volume_high, volume_low]

/-! ### Weekday encoding (encoder.py lines 188-310 and 359-372) -/

/-- Weekday selector: the seven named days plus the `everyday` member.
`LightWeekday` and `PumpWeekday` in the source use identical bit values, so
one type models both. -/
inductive Weekday where
  | monday | tuesday | wednesday | thursday | friday | saturday | sunday
  | everyday
deriving DecidableEq, Repr, Fintype

/-- The `_WEEKDAY_BIT_VALUES` table (encoder.py lines 214-223), identical
to the `PumpWeekday` flag values. -/
def weekdayBit : Weekday → Nat
  | .monday => 1 <<< 6
  | .tuesday => 1 <<< 5
  | .wednesday => 1 <<< 4
  | .thursday => 1 <<< 3
  | .friday => 1 <<< 2
  | .saturday => 1 <<< 1
  | .sunday => 1 <<< 0
  | .everyday => 0x7F

/-- `encode_weekdays` (encoder.py lines 243-310) on the `None` /
list-of-weekday-enums inputs: `None` maps to 127, an empty list raises
`ValueError`, a list containing `everyday` maps to 127, and otherwise the
bit values are OR-combined. -/
def encode_weekdays (weekdays : Option (List Weekday)) : Except String Nat :=
  match weekdays with
  | none => .ok 127
  | some l =>
    if l.isEmpty then .error "Weekdays list cannot be empty"
    else if Weekday.everyday ∈ l then .ok 127
    else .ok (l.foldl (fun acc d => acc ||| weekdayBit d) 0)

/-- Iteration order of the canonical `PumpWeekday` flags (`everyday` is a
composite alias and is excluded from iteration). -/
def weekdayOrder : List Weekday :=
  [.monday, .tuesday, .wednesday, .thursday, .friday, .saturday, .sunday]

/-- `decode_pump_weekdays` (encoder.py lines 359-372): converts a bitmask
back into the list of set weekdays, in `monday..sunday` order. -/
def decode_pump_weekdays (mask : Nat) : List Weekday :=
  if mask = 0 then []
  else weekdayOrder.filter (fun w => mask &&& weekdayBit w ≠ 0)

/-- `create_add_auto_setting_command` (encoder.py lines 122-157): validates
the brightness tuple (1-4 channels, each 0-100), then encodes the 0xA5
(165) / mode 25 frame with the parameter list padded to 7 brightness
slots with 255s. -/
def create_add_auto_setting_command (msg_id : Nat × Nat)
    (sunrise sunset : Nat × Nat) (brightness : List Nat)
    (ramp_up_minutes weekdays : Nat) : Except String (List Nat) :=
  if brightness.isEmpty ∨ brightness.length > 4 then
    .error "Brightness must contain 1-4 values"
  else if ¬ brightness.all (fun v => v ≤ 100) then
    .error "Brightness value must be 0-100"
  else
    let parameters :=
      [sunrise.1, sunrise.2, sunset.1, sunset.2, ramp_up_minutes, weekdays]
        ++ brightness ++ List.replicate (7 - brightness.length) 255
    _encode_uart_command uartFuel 165 25 msg_id parameters

/-- `create_delete_auto_setting_command` (encoder.py lines 160-170):
delegates to `create_add_auto_setting_command` with the brightness tuple
`(255, 255, 255)`. -/
def create_delete_auto_setting_command (msg_id : Nat × Nat)
    (sunrise sunset : Nat × Nat) (ramp_up_minutes weekdays : Nat) :
    Except String (List Nat) :=
  create_add_auto_setting_command msg_id sunrise sunset [255, 255, 255]
    ramp_up_minutes weekdays

/-! ## Doser status decoder (`src/aquable/storage/models.py` lines 17-201) -/

/-- `HeadSnapshot` (models.py lines 26-42). -/
structure HeadSnapshot where
  mode : Nat
  hour : Nat
  minute : Nat
  dosed_tenths_ml : Nat
  extra : List Nat
deriving DecidableEq, Repr

/-- `DoserStatus` (models.py lines 45-63). -/
structure DoserStatus where
  message_id : Option (Nat × Nat)
  response_mode : Option Nat
  weekday : Option Nat
  hour : Option Nat
  minute : Option Nat
  heads : List HeadSnapshot
  tail_targets : List Nat
  tail_flag : Option Nat
  tail_raw : List Nat
  lifetime_totals_tenths_ml : List Nat
  raw_payload : List Nat
deriving DecidableEq, Repr

/-- The head-block loop of `_parse_status_payload` (models.py lines
100-114): consume up to four full 9-byte chunks from the front of
`head_bytes`, stopping at the first incomplete chunk. -/
def parseHeadBlocks : Nat → List Nat → List HeadSnapshot
  | 0, _ => []
  | n + 1, bs =>
    if bs.length < 9 then []
    else
      { mode := bs.getD 0 0
        hour := bs.getD 1 0
        minute := bs.getD 2 0
        extra := (bs.drop 3).take 4
        dosed_tenths_ml := (bs.getD 7 0) <<< 8 ||| bs.getD 8 0 }
        :: parseHeadBlocks n (bs.drop 9)

/-- `_parse_status_payload` (models.py lines 66-133): response mode 0xFE,
head data following a 9-byte header, with the last 5 body bytes reserved
as the tail. -/
def _parse_status_payload (payload : List Nat) : Except String DoserStatus :=
  if payload.isEmpty ∨ payload.length < 9 ∨ payload.getD 0 0 ≠ 0x5B then
    .error "Invalid payload structure"
  else
    let body := payload.drop 9
    let tail_raw := if body.length ≥ 5 then body.drop (body.length - 5) else []
    let head_bytes := if body.length ≥ 5 then body.take (body.length - 5) else body
    .ok
      { message_id := some (payload.getD 3 0, payload.getD 4 0)
        response_mode := some (payload.getD 5 0)
        weekday := some (payload.getD 6 0)
        hour := some (payload.getD 7 0)
        minute := some (payload.getD 8 0)
        heads := parseHeadBlocks 4 head_bytes
        tail_targets := if tail_raw.isEmpty then [] else tail_raw.take 4
        tail_flag := if tail_raw.length > 4 then some (tail_raw.getD 4 0) else none
        tail_raw := tail_raw
        lifetime_totals_tenths_ml := []
        raw_payload := payload }

/-- `_parse_lifetime_payload` (models.py lines 136-178): response mode
0x1E, pairs of big-endian 2-byte lifetime totals starting at byte 6, up to
4 heads, no time fields. -/
def _parse_lifetime_payload (payload : List Nat) : Except String DoserStatus :=
  if payload.isEmpty ∨ payload.length < 6 ∨ payload.getD 0 0 ≠ 0x5B then
    .error "Invalid payload structure"
  else
    let lifetime_data := payload.drop 6
    let num_heads := min 4 (lifetime_data.length / 2)
    .ok
      { message_id := some (payload.getD 3 0, payload.getD 4 0)
        response_mode := some (payload.getD 5 0)
        weekday := none
        hour := none
        minute := none
        heads := []
        tail_targets := []
        tail_flag := none
        tail_raw := []
        lifetime_totals_tenths_ml :=
          (List.range num_heads).map fun i =>
            (lifetime_data.getD (i * 2) 0) <<< 8 ||| lifetime_data.getD (i * 2 + 1) 0
        raw_payload := payload }

/-- `parse_doser_payload` (models.py lines 181-200): dispatch on the
response mode at byte 5; unknown modes fall back to the status parser. -/
def parse_doser_payload (payload : List Nat) : Except String DoserStatus :=
  if payload.isEmpty ∨ payload.length < 6 then .error "payload too short"
  else
    let response_mode := payload.getD 5 0
    if response_mode = 0xFE then _parse_status_payload payload
    else if response_mode = 0x1E then _parse_lifetime_payload payload
    else _parse_status_payload payload

/-- `Doser.handle_notification` (doser.py lines 34-78): validates the
payload shape, keeps only modes 0xFE/0x1E, and replaces the cached status
only on successful parsing; every failure path leaves the cached status
unchanged (a raised parse error is caught and logged). -/
def handle_notification (last : Option DoserStatus) (payload : List Nat) :
    Option DoserStatus :=
  if payload.isEmpty then last
  else if payload.getD 0 0 ≠ 0x5B ∨ payload.length < 6 then last
  else
    let mode := payload.getD 5 0
    if mode ≠ 0xFE ∧ mode ≠ 0x1E then last
    else
      match parse_doser_payload payload with
      | .error _ => last
      | .ok parsed => some parsed

/-! ## Light status decoder (`src/aquable/storage/models.py` lines 208-337) -/

/-- `LightKeyframe` (models.py lines 208-218). -/
structure LightKeyframe where
  hour : Nat
  minute : Nat
  value : Nat
deriving DecidableEq, Repr

/-- `LightStatus` (models.py lines 221-233). -/
structure LightStatus where
  message_id : Option (Nat × Nat)
  response_mode : Option Nat
  weekday : Option Nat
  hour : Option Nat
  minute : Option Nat
  keyframes : List LightKeyframe
  time_markers : List (Nat × Nat)
  tail : List Nat
  raw_payload : List Nat
deriving DecidableEq, Repr

/-- Result of `_split_body` (models.py lines 251-271). -/
structure SplitHeader where
  message_id : Option (Nat × Nat)
  response_mode : Option Nat
  weekday : Option Nat
  hour : Option Nat
  minute : Option Nat
  body : List Nat
deriving DecidableEq, Repr

/-- `_split_body` (models.py lines 251-271): strip the 9-byte header when
the payload starts with 0x5B and is long enough; otherwise every header
field is `None` and the body is the whole payload. -/
def _split_body (payload : List Nat) : SplitHeader :=
  if ¬ payload.isEmpty ∧ payload.getD 0 0 = 0x5B ∧ payload.length ≥ 9 then
    { message_id := some (payload.getD 3 0, payload.getD 4 0)
      response_mode := some (payload.getD 5 0)
      weekday := some (payload.getD 6 0)
      hour := some (payload.getD 7 0)
      minute := some (payload.getD 8 0)
      body := payload.drop 9 }
  else
    { message_id := none, response_mode := none, weekday := none,
      hour := none, minute := none, body := payload }

/-- `bytes.find` on lists: index of the first occurrence of `pattern` as a
contiguous sub-sequence, `none` when absent (Python returns -1). -/
def findSub (pattern : List Nat) : List Nat → Option Nat
  | [] => if pattern.isEmpty then some 0 else none
  | b :: rest =>
    if pattern.isPrefixOf (b :: rest) then some 0
    else (findSub pattern rest).map (· + 1)

/-- State produced by the scan loop of `parse_light_payload` (models.py
lines 297-325).  `hm` holds the final values of the Python locals `hour`
and `minute`, which the loop reassigns on every 3-byte group it examines
(clobbering the header values in the returned status). -/
structure ScanResult where
  keyframes : List LightKeyframe
  time_markers : List (Nat × Nat)
  hm : Option Nat × Option Nat
deriving DecidableEq, Repr

/-- Out-of-order test of the scan loop (models.py line 320):
`last_time is not None and total_minutes < last_time`. -/
def outOfOrder (last : Option Nat) (total : Nat) : Bool :=
  match last with
  | some t => total < t
  | none => false

/-- The scan loop of `parse_light_payload` (models.py lines 297-325):
a 4-byte group starting `0x00 0x02` is a time marker (advance 4 bytes);
otherwise a 3-byte group is examined: an all-zero triple is skipped as
padding, a triple whose time-of-day is strictly less than the previous
keyframe's terminates the scan, and any other triple is appended as a
keyframe. -/
def scanBody (hm : Option Nat × Option Nat) (last : Option Nat) :
    List Nat → ScanResult
  | 0 :: 2 :: c :: d :: rest =>
    { keyframes := (scanBody hm last rest).keyframes
      time_markers := (c, d) :: (scanBody hm last rest).time_markers
      hm := (scanBody hm last rest).hm }
  | h :: m :: v :: rest =>
    if h = 0 ∧ m = 0 ∧ v = 0 then scanBody (some h, some m) last rest
    else if outOfOrder last (h * 60 + m) then
      { keyframes := [], time_markers := [], hm := (some h, some m) }
    else
      { keyframes := { hour := h, minute := m, value := v }
          :: (scanBody (some h, some m) (some (h * 60 + m)) rest).keyframes
        time_markers := (scanBody (some h, some m) (some (h * 60 + m)) rest).time_markers
        hm := (scanBody (some h, some m) (some (h * 60 + m)) rest).hm }
  | _ => { keyframes := [], time_markers := [], hm := hm }

/-- The body of a light payload after stripping the 9-byte header and the
trailing 5-byte tail, before the echo strip (models.py lines 285-286). -/
def lightBodyPreTail (payload : List Nat) : List Nat :=
  let body := (_split_body payload).body
  if body.length ≥ 5 then body.take (body.length - 5) else body

/-- The echo strip of `parse_light_payload` (models.py lines 288-292):
when the header (weekday, hour, minute) triple is present and reoccurs in
the body at index ≤ 16, everything up to and including that first echo is
stripped before scanning. -/
def lightScanBody (payload : List Nat) : List Nat :=
  let s := _split_body payload
  let body1 := lightBodyPreTail payload
  match s.weekday, s.hour, s.minute with
  | some wd, some hr, some mi =>
    if body1.length ≥ 3 then
      match findSub [wd, hr, mi] body1 with
      | some idx => if idx ≤ 16 then body1.drop (idx + 3) else body1
      | none => body1
    else body1
  | _, _, _ => body1

/-- `parse_light_payload` (models.py lines 274-337): split the header,
reserve the last 5 body bytes as the tail, strip the header echo when
present (`lightScanBody`), then run the scan loop. -/
def parse_light_payload (payload : List Nat) : LightStatus :=
  let s := _split_body payload
  let body := s.body
  let tail := if body.length ≥ 5 then body.drop (body.length - 5) else []
  let r := scanBody (s.hour, s.minute) none (lightScanBody payload)
  { message_id := s.message_id
    response_mode := s.response_mode
    weekday := s.weekday
    hour := r.hm.1
    minute := r.hm.2
    keyframes := r.keyframes
    time_markers := r.time_markers
    tail := tail
    raw_payload := payload }

/-- The decoding prescribed by the claim wording for comparison with the
source: scan the body obtained by stripping only the 9-byte header and the
trailing 5-byte tail, with no echo strip, using the same left-to-right
scan loop. -/
def claimLightKeyframes (payload : List Nat) : List LightKeyframe :=
  let s := _split_body payload
  (scanBody (s.hour, s.minute) none (lightBodyPreTail payload)).keyframes

/-! ## Doser daily-dose sequence (`src/aquable/device/doser.py` lines 85-166) -/

/-- Modelled from the spec: `BaseDevice.get_next_msg_id` (the file
`base_device.py` is absent from the provided sources).  Per the spec's
data model the message id state is "mutated by next(); reset to (0,1) at
session start", so each call advances the stored id with
`next_message_id` and uses the advanced value.  Returns (id to use, new
state). -/
def get_next_msg_id (st : Nat × Nat) : Except String ((Nat × Nat) × (Nat × Nat)) :=
  (next_message_id st).map fun id => (id, id)

/-- `Doser.set_daily_dose` (doser.py lines 85-166), frame-construction
part: the 8 frames of the fixed sequence, in order — handshake, two
time-sync frames, prepare stage 0x04, prepare stage 0x05, head-select,
head-dose, head-schedule.  `datetime.now()` is passed explicitly as `now`;
the 1-based `head_index` is converted to the 0-based BLE index. -/
def set_daily_dose (st : Nat × Nat) (now : DeviceTime) (head_index : Nat)
    (volume_tenths_ml : Int) (hour minute : Nat)
    (weekdays : Option (List Weekday)) : Except String (List (List Nat)) := do
  let ble_head_index := head_index - 1
  let weekday_mask ← encode_weekdays weekdays
  let (id1, st1) ← get_next_msg_id st
  let f1 ← create_handshake_command id1
  let (id2, st2) ← get_next_msg_id st1
  let f2 ← create_set_time_command id2 now
  let (id3, st3) ← get_next_msg_id st2
  let f3 ← create_set_time_command id3 now
  let (id4, st4) ← get_next_msg_id st3
  let f4 ← create_prepare_command id4 0x04
  let (id5, st5) ← get_next_msg_id st4
  let f5 ← create_prepare_command id5 0x05
  let (id6, st6) ← get_next_msg_id st5
  let f6 ← create_head_select_command id6 ble_head_index
  let (id7, st7) ← get_next_msg_id st6
  let f7 ← create_head_dose_command id7 ble_head_index volume_tenths_ml weekday_mask
  let (id8, _) ← get_next_msg_id st7
  let f8 ← create_head_schedule_command id8 ble_head_index hour minute
  return [f1, f2, f3, f4, f5, f6, f7, f8]

/-- Modelled from the spec: sequential transmission of the frames of
`set_daily_dose` through `BaseDevice._send_command` (base_device.py is
absent; per the spec each send has its own transport-level retry count and
a failure partway through aborts the whole sequence).  `ok i` records
whether the i-th send succeeds; the result lists the frames whose
transmission was attempted, in order — a failed send is the last one
attempted. -/
def sendSequentially (ok : Nat → Bool) : Nat → List α → List α
  | _, [] => []
  | i, f :: fs => if ok i then f :: sendSequentially ok (i + 1) fs else [f]

/-! ## Command execution pipeline (`src/aquable/config/executor.py`) -/

/-- Command record status values (spec §4.4 state machine). -/
inductive CmdStatus where
  | pending | started | success | failed | timedOut
deriving DecidableEq, Repr

/-- Error classification used by `CommandExecutor.execute_command`. -/
inductive ErrorKind where
  | validation_error | ble_connection_error | invalid_arguments | internal_error
deriving DecidableEq, Repr

/-- Modelled from the spec: `CommandRecord` (`commands_model.py` is absent
from the provided sources).  Per the spec it is a per-request record with
state machine pending → started → (success | failed | timeout); the full
status history is kept here so transitions can be stated. -/
structure CommandRecord where
  statusHistory : List CmdStatus
  error : Option String
  error_kind : Option ErrorKind
deriving DecidableEq, Repr

/-- Modelled from the spec: a freshly created record is `pending`. -/
def CommandRecord.create : CommandRecord :=
  { statusHistory := [.pending], error := none, error_kind := none }

/-- Modelled from the spec: `CommandRecord.mark_failed`. -/
def CommandRecord.mark_failed (r : CommandRecord) (msg : String) (kind : ErrorKind) :
    CommandRecord :=
  { r with statusHistory := r.statusHistory ++ [.failed],
           error := some msg, error_kind := some kind }

/-- Modelled from the spec: `CommandRecord.mark_started`. -/
def CommandRecord.mark_started (r : CommandRecord) : CommandRecord :=
  { r with statusHistory := r.statusHistory ++ [.started] }

/-- Modelled from the spec: `CommandRecord.mark_success`. -/
def CommandRecord.mark_success (r : CommandRecord) : CommandRecord :=
  { r with statusHistory := r.statusHistory ++ [.success] }

/-- Modelled from the spec: `CommandRecord.mark_timeout`. -/
def CommandRecord.mark_timeout (r : CommandRecord) : CommandRecord :=
  { r with statusHistory := r.statusHistory ++ [.timedOut] }

/-- Observable steps of `CommandExecutor.execute_command` after argument
validation: acquiring the per-device lock, marking the record started,
running the device action, releasing the lock. -/
inductive ExecEvent where
  | acquireLock | markStarted | deviceAction | releaseLock
deriving DecidableEq, Repr

/-- Outcome of the awaited action body in `execute_command`
(executor.py lines 114-166). -/
inductive ActionOutcome where
  | completed
  | timedOut
  | bleError (msg : String)
  | valueError (msg : String)
  | unexpected (msg : String)
deriving DecidableEq, Repr

/-- `CommandExecutor.execute_command` (executor.py lines 78-173), with
argument validation abstracted as an `Except` input and the awaited action
body abstracted as an `ActionOutcome`.  Validation failure produces a
record marked failed with kind `validation_error` before the lock is
touched; otherwise the lock is acquired, the record is marked started, the
action runs under the timeout and its outcome is classified.  The returned
event list records the steps taken after validation. -/
def execute_command (validation : Except String Unit) (outcome : ActionOutcome) :
    CommandRecord × List ExecEvent :=
  match validation with
  | .error e =>
    (CommandRecord.create.mark_failed e .validation_error, [])
  | .ok _ =>
    let record := CommandRecord.create.mark_started
    let events := [ExecEvent.acquireLock, ExecEvent.markStarted,
                   ExecEvent.deviceAction, ExecEvent.releaseLock]
    match outcome with
    | .completed => (record.mark_success, events)
    | .timedOut => (record.mark_timeout, events)
    | .bleError msg => (record.mark_failed msg .ble_connection_error, events)
    | .valueError msg => (record.mark_failed msg .invalid_arguments, events)
    | .unexpected msg => (record.mark_failed msg .internal_error, events)

/-! ## Connection registry (`src/aquable/ble_service.py` lines 303-358) -/

/-- Observable steps of `BLEService._ensure_device`. -/
inductive RegEvent where
  | cacheCheck
  | resolveAttempt (attempt : Nat)
  | backoffSleep (attempt : Nat)
  | kindCheck
  | storeHandle
  | raiseNotFound
deriving DecidableEq, Repr

/-- The retry loop of `_ensure_device` (ble_service.py lines 319-336):
up to 3 resolution attempts with a backoff sleep between failed attempts;
exhausting the retries raises not-found.  `fuel` counts the remaining
attempts (3 at the top). -/
def attemptEvents (resolveOk : Nat → Bool) : Nat → Nat → List RegEvent
  | 0, _ => []
  | fuel + 1, i =>
    if resolveOk i then [.resolveAttempt i]
    else if fuel = 0 then [.resolveAttempt i, .raiseNotFound]
    else .resolveAttempt i :: .backoffSleep i :: attemptEvents resolveOk fuel (i + 1)

/-- `BLEService._ensure_device` (ble_service.py lines 303-358) as an event
trace.  The entire body — the cache check, every radio resolution attempt
with its backoff sleeps, the kind check and the handle insertion — runs
inside `async with self._lock`, so every event is paired with
lock-held = `true`.  `cached` abstracts whether a handle for the expected
kind and address is already registered; `resolveOk i` abstracts whether
the i-th `get_device_from_address` attempt succeeds. -/
def ensure_device_trace (cached : Bool) (resolveOk : Nat → Bool) :
    List (RegEvent × Bool) :=
  let events :=
    if cached then [RegEvent.cacheCheck]
    else
      RegEvent.cacheCheck :: attemptEvents resolveOk 3 0 ++
        (if resolveOk 0 || resolveOk 1 || resolveOk 2 then
          [RegEvent.kindCheck, RegEvent.storeHandle]
        else [])
  events.map fun e => (e, true)

/-! ## Proof-side definitions -/

/-- Index of a byte among the 255 valid (non-90) byte values, in numeric
order; used to rank message ids. -/
def byteIdx (b : Nat) : Nat := if b < 90 then b else b - 1

/-- Rank of a message id pair in the sequence generated from (0, 0):
base-255 combination of the two byte indices.  Valid pairs have ranks
0..65024; the generated cycle visits ranks 1..65024. -/
def msgIdIndex (p : Nat × Nat) : Nat := byteIdx p.1 * 255 + byteIdx p.2

/-- The id stream: `msgIdSeq 0` is the session-start id (0, 1) and each
successive element is the wrap/skip successor. -/
def msgIdSeq : Nat → Nat × Nat
  | 0 => reset_message_id
  | n + 1 => nextMsgIdTotal (msgIdSeq n)

/-- Time-of-day of a keyframe in minutes. -/
def keyframeMinutes (k : LightKeyframe) : Nat := k.hour * 60 + k.minute

/-- Bit position of each named weekday (monday = bit 6 … sunday = bit 0);
7 is a placeholder for the composite `everyday` value. -/
def weekdayPos : Weekday → Nat
  | .monday => 6
  | .tuesday => 5
  | .wednesday => 4
  | .thursday => 3
  | .friday => 2
  | .saturday => 1
  | .sunday => 0
  | .everyday => 7

/-! ## Supporting lemmas -/

theorem xor_left_comm (a b c : Nat) : a ^^^ (b ^^^ c) = b ^^^ (a ^^^ c) := by
  rw [← Nat.xor_assoc, Nat.xor_comm a b, Nat.xor_assoc]

theorem foldl_xor_shift (l : List Nat) (a : Nat) :
    l.foldl (fun acc b => acc ^^^ b) a = a ^^^ l.foldl (fun acc b => acc ^^^ b) 0 := by
  induction l generalizing a with
  | nil => simp
  | cons x xs ih =>
    simp only [List.foldl_cons]
    rw [ih (a ^^^ x), ih (0 ^^^ x), Nat.zero_xor, Nat.xor_assoc]

theorem xor_left_cancel {a b c : Nat} (h : a ^^^ b = a ^^^ c) : b = c := by
  have h2 := congrArg (fun x => a ^^^ x) h
  simpa [← Nat.xor_assoc, Nat.xor_self, Nat.zero_xor] using h2

set_option maxRecDepth 4096 in
theorem xor_255_eq : ∀ b : Fin 256, b.val ^^^ 255 = 255 - b.val := by decide

theorem validMsgId_nextTotal {p : Nat × Nat} (h : validMsgId p) :
    validMsgId (nextMsgIdTotal p) := by
  obtain ⟨hi, lo⟩ := p
  obtain ⟨h1, h2, h3, h4⟩ := h
  simp only [validMsgId, nextMsgIdTotal] at *
  split_ifs <;> simp_all <;> omega

theorem next_message_id_ok {p : Nat × Nat} (h : validMsgId p) :
    next_message_id p = .ok (nextMsgIdTotal p) := by
  obtain ⟨h1, h2, h3, h4⟩ := h
  have c1 : ¬(p.1 > 255 ∨ p.2 > 255) := by omega
  have c2 : ¬(p.1 = 90 ∨ p.2 = 90) := by simp [h3, h4]
  rw [next_message_id, if_neg c1, if_neg c2]

theorem nextTotal_xor_ne {p : Nat × Nat} (h : validMsgId p) (hne : p ≠ (127, 255)) :
    (nextMsgIdTotal p).1 ^^^ (nextMsgIdTotal p).2 ≠ p.1 ^^^ p.2 := by
  obtain ⟨hi, lo⟩ := p
  obtain ⟨h1, h2, h3, h4⟩ := h
  simp only [nextMsgIdTotal]
  split_ifs with hlo hhi hhi89
  · subst hlo; subst hhi; decide
  · subst hlo; subst hhi89; decide
  · subst hlo
    dsimp only
    rw [Nat.xor_zero]
    intro heq
    have h255 : hi ^^^ 255 = 255 - hi := xor_255_eq ⟨hi, by omega⟩
    have : hi = 127 := by omega
    subst this
    exact hne rfl
  · rename_i hlo89
    subst hlo89
    dsimp only
    intro heq
    have := xor_left_cancel heq
    omega
  · dsimp only
    intro heq
    have := xor_left_cancel heq
    omega

theorem msgIdIndex_nextTotal {p : Nat × Nat} (h : validMsgId p) :
    msgIdIndex (nextMsgIdTotal p) = msgIdIndex p % 65024 + 1 := by
  obtain ⟨hi, lo⟩ := p
  obtain ⟨h1, h2, h3, h4⟩ := h
  simp only [msgIdIndex, nextMsgIdTotal, byteIdx]
  split_ifs <;> omega

theorem msgIdIndex_inj {p q : Nat × Nat} (hp : validMsgId p) (hq : validMsgId q)
    (h : msgIdIndex p = msgIdIndex q) : p = q := by
  obtain ⟨a, b⟩ := p
  obtain ⟨c, d⟩ := q
  obtain ⟨hp1, hp2, hp3, hp4⟩ := hp
  obtain ⟨hq1, hq2, hq3, hq4⟩ := hq
  simp only [msgIdIndex, byteIdx] at h
  have hcomp : a = c ∧ b = d := by split_ifs at h <;> omega
  rw [hcomp.1, hcomp.2]

theorem validMsgId_msgIdSeq (n : Nat) : validMsgId (msgIdSeq n) := by
  induction n with
  | zero => decide
  | succ n ih => exact validMsgId_nextTotal ih

theorem msgIdIndex_msgIdSeq (n : Nat) : msgIdIndex (msgIdSeq n) = n % 65024 + 1 := by
  induction n with
  | zero => decide
  | succ n ih =>
    rw [msgIdSeq, msgIdIndex_nextTotal (validMsgId_msgIdSeq n), ih]
    omega

/-! ## C2 -/

/-- C2: `next_message_id` preserves validity — starting from any valid
pair (both bytes in 0..255, neither 90) it succeeds and returns a pair in
which neither byte is 90, computed by the stated wrap/skip algorithm
(`nextMsgIdTotal`); consequently every id in the stream generated from
(0, 1) is valid (no byte ever 90, never (0, 0)) and the stream does not
repeat before all 65024 ids of the cycle have been exhausted. -/
theorem next_message_id_spec :
    (∀ p : Nat × Nat, validMsgId p →
        next_message_id p = .ok (nextMsgIdTotal p) ∧ validMsgId (nextMsgIdTotal p)) ∧
    (∀ n : Nat, validMsgId (msgIdSeq n) ∧ msgIdSeq n ≠ (0, 0)) ∧
    (∀ j k : Nat, j < k → k < 65024 → msgIdSeq j ≠ msgIdSeq k) := by
  refine ⟨fun p hp => ⟨next_message_id_ok hp, validMsgId_nextTotal hp⟩, ?_, ?_⟩
  · intro n
    refine ⟨validMsgId_msgIdSeq n, fun heq => ?_⟩
    have h := msgIdIndex_msgIdSeq n
    rw [heq] at h
    simp [msgIdIndex, byteIdx] at h
  · intro j k hjk hk heq
    have h := congrArg msgIdIndex heq
    rw [msgIdIndex_msgIdSeq, msgIdIndex_msgIdSeq] at h
    omega

/-- C2 witness: the id-stream theorem instantiated at the skip boundary
(0, 89) → (0, 91) and at the first two distinct stream elements. -/
theorem next_message_id_spec_witness :
    validMsgId (0, 89) ∧ next_message_id (0, 89) = .ok (0, 91) ∧
    msgIdSeq 0 ≠ msgIdSeq 1 :=
  ⟨by decide,
   by
     have h := (next_message_id_spec.1 (0, 89) (by decide)).1
     simpa [nextMsgIdTotal] using h,
   next_message_id_spec.2.2 0 1 (by decide) (by decide)⟩

theorem sanitizeByte_le {b : Nat} (h : b ≤ 255) : sanitizeByte b ≤ 255 := by
  unfold sanitizeByte
  split <;> omega

theorem sanitizeByte_ne_90 (b : Nat) : sanitizeByte b ≠ 90 := by
  unfold sanitizeByte
  split <;> omega

theorem frameCore_length (cmd mode : Nat) (p : Nat × Nat) (params : List Nat) :
    (frameCore cmd mode p params).length = params.length + 6 := by
  simp [frameCore]

theorem frameCore_all_le {cmd mode : Nat} {p : Nat × Nat} {params : List Nat}
    (hc : cmd ≤ 255) (hm : mode ≤ 255) (hp1 : p.1 ≤ 255) (hp2 : p.2 ≤ 255)
    (hlen : params.length + 5 ≤ 255) (hpar : ∀ b ∈ params, b ≤ 255) :
    (frameCore cmd mode p params).all (· ≤ 255) = true := by
  rw [List.all_eq_true]
  intro x hx
  simp only [frameCore, List.cons_append, List.mem_cons, List.mem_map,
    List.nil_append] at hx
  rcases hx with rfl | rfl | rfl | rfl | rfl | rfl | ⟨b, hb, rfl⟩
  · simpa using hc
  · simp
  · simpa using by omega
  · simpa using hp1
  · simpa using hp2
  · simpa using hm
  · simpa using sanitizeByte_le (hpar b hb)

theorem xorFrom1_frameCore (cmd mode : Nat) (p : Nat × Nat) (params : List Nat) :
    xorFromIndex1 (frameCore cmd mode p params)
      = (1 ^^^ (params.length + 5) ^^^ mode
          ^^^ (params.map sanitizeByte).foldl (fun a b => a ^^^ b) 0)
        ^^^ (p.1 ^^^ p.2) := by
  simp only [xorFromIndex1, frameCore, List.cons_append, List.drop_succ_cons,
    List.drop_zero, List.foldl_cons]
  rw [foldl_xor_shift]
  simp [Nat.xor_assoc, Nat.xor_comm, xor_left_comm]

theorem encode_step {fuel cmd mode : Nat} {p : Nat × Nat} {params : List Nat}
    (hall : (frameCore cmd mode p params).all (· ≤ 255) = true)
    (hlen : ¬ (frameCore cmd mode p params).length < 7) :
    _encode_uart_command (fuel + 1) cmd mode p params =
      if xorFromIndex1 (frameCore cmd mode p params) = 0x5A then
        match next_message_id p with
        | .error e => .error e
        | .ok q => _encode_uart_command fuel cmd mode q params
      else
        .ok (frameCore cmd mode p params
          ++ [xorFromIndex1 (frameCore cmd mode p params)]) := by
  conv_lhs => rw [_encode_uart_command]
  rw [if_neg (by simp [hall]), if_neg hlen]

/-- Core shape and termination fact for `_encode_uart_command`: for every
in-range input with a nonempty parameter list, fuel 3 suffices, the
emitted frame is the header-parameter core (under the original message id
or one advanced at most twice) followed by the XOR checksum of the core
from index 1, and that checksum byte is never 90. -/
theorem encode_ok (cmd mode : Nat) (p : Nat × Nat) (params : List Nat)
    (hc : cmd ≤ 255) (hm : mode ≤ 255) (hp : validMsgId p)
    (hpar : ∀ b ∈ params, b ≤ 255) (hne : params ≠ [])
    (hlen : params.length + 5 ≤ 255) :
    ∃ q : Nat × Nat,
      (q = p ∨ q = nextMsgIdTotal p ∨ q = nextMsgIdTotal (nextMsgIdTotal p)) ∧
      validMsgId q ∧
      _encode_uart_command 3 cmd mode p params
        = .ok (frameCore cmd mode q params
            ++ [xorFromIndex1 (frameCore cmd mode q params)]) ∧
      xorFromIndex1 (frameCore cmd mode q params) ≠ 0x5A := by
  have hlenpos : 1 ≤ params.length := by
    cases params
    · exact absurd rfl hne
    · simp
  have hlen7 : ∀ q : Nat × Nat, ¬ (frameCore cmd mode q params).length < 7 := by
    intro q
    rw [frameCore_length]
    omega
  have hallq : ∀ q : Nat × Nat, validMsgId q →
      (frameCore cmd mode q params).all (· ≤ 255) = true := by
    intro q hq
    exact frameCore_all_le hc hm hq.1 hq.2.1 hlen hpar
  by_cases hcs : xorFromIndex1 (frameCore cmd mode p params) = 0x5A
  · -- checksum collision at the original id: re-encode with the next id
    have hp1 : validMsgId (nextMsgIdTotal p) := validMsgId_nextTotal hp
    by_cases hcs1 :
        xorFromIndex1 (frameCore cmd mode (nextMsgIdTotal p) params) = 0x5A
    · -- a second collision forces p = (127, 255); the third id differs
      have hx : (nextMsgIdTotal p).1 ^^^ (nextMsgIdTotal p).2 = p.1 ^^^ p.2 := by
        have e0 := xorFrom1_frameCore cmd mode p params
        have e1 := xorFrom1_frameCore cmd mode (nextMsgIdTotal p) params
        rw [e0] at hcs
        rw [e1] at hcs1
        exact xor_left_cancel (hcs1.trans hcs.symm)
      have hp127 : p = (127, 255) := by
        by_contra hne127
        exact nextTotal_xor_ne hp hne127 hx
      subst hp127
      have h1 : nextMsgIdTotal (127, 255) = (128, 0) := rfl
      have h2 : nextMsgIdTotal (128, 0) = (128, 1) := rfl
      have hp2 : validMsgId (nextMsgIdTotal (nextMsgIdTotal (127, 255))) :=
        validMsgId_nextTotal hp1
      have hcs2 :
          xorFromIndex1 (frameCore cmd mode
            (nextMsgIdTotal (nextMsgIdTotal (127, 255))) params) ≠ 0x5A := by
        rw [h1, h2]
        rw [h1] at hcs1
        intro hbad
        rw [xorFrom1_frameCore] at hbad hcs1
        have := xor_left_cancel (hbad.trans hcs1.symm)
        simp at this
      refine ⟨nextMsgIdTotal (nextMsgIdTotal (127, 255)),
        Or.inr (Or.inr rfl), hp2, ?_, hcs2⟩
      rw [encode_step (hallq _ hp) (hlen7 _), if_pos hcs, next_message_id_ok hp]
      dsimp only
      rw [encode_step (hallq _ hp1) (hlen7 _), if_pos hcs1, next_message_id_ok hp1]
      dsimp only
      rw [encode_step (hallq _ hp2) (hlen7 _), if_neg hcs2]
    · refine ⟨nextMsgIdTotal p, Or.inr (Or.inl rfl), hp1, ?_, hcs1⟩
      rw [encode_step (hallq _ hp) (hlen7 _), if_pos hcs, next_message_id_ok hp]
      dsimp only
      rw [encode_step (hallq _ hp1) (hlen7 _), if_neg hcs1]
  · refine ⟨p, Or.inl rfl, hp, ?_, hcs⟩
    rw [encode_step (hallq p hp) (hlen7 p), if_neg hcs]

/-! ## C1 -/

/-- C1: the frame encoder is a pure function (a Lean function by
construction) whose output on every valid input is exactly
`[cmd_id, 0x01, number-of-params + 5, msg_hi, msg_lo, mode,
sanitized params, checksum]`, where every parameter byte equal to 90 is
replaced by 89 before the checksum is computed, the checksum is the XOR of
all frame bytes from index 1 onward, the emitted checksum byte is never
90, and a raw checksum of 90 causes re-encoding under the next message
id (at most two advances are ever needed). -/
theorem encode_frame_deterministic_shape (cmd mode : Nat) (p : Nat × Nat)
    (params : List Nat) (hc : cmd ≤ 255) (hm : mode ≤ 255) (hp : validMsgId p)
    (hpar : ∀ b ∈ params, b ≤ 255) (hne : params ≠ [])
    (hlen : params.length + 5 ≤ 255) :
    ∃ (q : Nat × Nat) (cs : Nat),
      (q = p ∨ q = nextMsgIdTotal p ∨ q = nextMsgIdTotal (nextMsgIdTotal p)) ∧
      _encode_uart_command 3 cmd mode p params
        = .ok ([cmd, 0x01, params.length + 5, q.1, q.2, mode]
            ++ params.map sanitizeByte ++ [cs]) ∧
      cs = xorFromIndex1
        ([cmd, 0x01, params.length + 5, q.1, q.2, mode] ++ params.map sanitizeByte) ∧
      cs ≠ 90 := by
  obtain ⟨q, hq, _, henc, hcs⟩ := encode_ok cmd mode p params hc hm hp hpar hne hlen
  exact ⟨q, xorFromIndex1 (frameCore cmd mode q params), hq,
    by simpa [frameCore] using henc, by simp [frameCore], hcs⟩

/-- C1 witness: the shape theorem applied to the handshake frame input
(cmd 0x5A, mode 0x04, message id (0, 1), params [0x01]). -/
theorem encode_frame_deterministic_shape_witness :
    ∃ (q : Nat × Nat) (cs : Nat),
      (q = (0, 1) ∨ q = nextMsgIdTotal (0, 1)
        ∨ q = nextMsgIdTotal (nextMsgIdTotal (0, 1))) ∧
      _encode_uart_command 3 0x5A 0x04 (0, 1) [0x01]
        = .ok ([0x5A, 0x01, ([0x01] : List Nat).length + 5, q.1, q.2, 0x04]
            ++ [0x01].map sanitizeByte ++ [cs]) ∧
      cs = xorFromIndex1
        ([0x5A, 0x01, ([0x01] : List Nat).length + 5, q.1, q.2, 0x04]
          ++ [0x01].map sanitizeByte) ∧
      cs ≠ 90 :=
  encode_frame_deterministic_shape 0x5A 0x04 (0, 1) [0x01]
    (by decide) (by decide) (by decide) (by decide) (by decide) (by decide)

theorem foldl_or_shift (l : List Weekday) (a : Nat) :
    l.foldl (fun acc d => acc ||| weekdayBit d) a
      = a ||| l.foldl (fun acc d => acc ||| weekdayBit d) 0 := by
  induction l generalizing a with
  | nil => simp
  | cons x xs ih =>
    simp only [List.foldl_cons]
    rw [ih (a ||| weekdayBit x), ih (0 ||| weekdayBit x), Nat.zero_or, Nat.or_assoc]

theorem weekdayBit_eq_pow : ∀ w : Weekday, w ≠ .everyday →
    weekdayBit w = 2 ^ weekdayPos w := by decide

theorem testBit_weekdayBit : ∀ d w : Weekday, d ≠ .everyday → w ≠ .everyday →
    ((weekdayBit d).testBit (weekdayPos w) = true ↔ d = w) := by decide

theorem mem_weekdayOrder : ∀ w : Weekday, w ≠ .everyday → w ∈ weekdayOrder := by
  decide

theorem mask_testBit (days : List Weekday) (i : Nat) :
    (days.foldl (fun acc d => acc ||| weekdayBit d) 0).testBit i
      = days.any fun d => (weekdayBit d).testBit i := by
  induction days with
  | nil => simp
  | cons d ds ih =>
    simp only [List.foldl_cons, List.any_cons]
    rw [foldl_or_shift, Nat.zero_or, Nat.testBit_lor, ih]

theorem and_two_pow_ne_zero (M i : Nat) :
    (M &&& 2 ^ i ≠ 0) ↔ M.testBit i = true := by
  rw [Nat.and_two_pow]
  cases htb : M.testBit i
  · simp [htb]
  · simp [htb, (Nat.two_pow_pos i).ne']

theorem mask_and_iff (days : List Weekday) (hev : Weekday.everyday ∉ days)
    (w : Weekday) (hw : w ≠ .everyday) :
    ((days.foldl (fun acc d => acc ||| weekdayBit d) 0) &&& weekdayBit w ≠ 0)
      ↔ w ∈ days := by
  rw [weekdayBit_eq_pow w hw, and_two_pow_ne_zero, mask_testBit]
  rw [List.any_eq_true]
  constructor
  · rintro ⟨d, hd, htb⟩
    have hdev : d ≠ .everyday := fun h => hev (h ▸ hd)
    exact ((testBit_weekdayBit d w hdev hw).mp htb) ▸ hd
  · intro hmem
    exact ⟨w, hmem, (testBit_weekdayBit w w hw hw).mpr rfl⟩

/-! ## C3 -/

/-- C3 counterexample: `encode_weekdays` applied to the empty day list
raises `ValueError` instead of returning the everyday mask 0x7F, refuting
the claim that `encode_weekdays([]) == 0x7F`. -/
theorem encode_weekdays_empty_rejected :
    encode_weekdays (some []) ≠ .ok 0x7F ∧
    encode_weekdays (some []) = .error "Weekdays list cannot be empty" :=
  ⟨fun h => by simp [encode_weekdays] at h, rfl⟩

/-- C3 amended: encoding a set of named weekdays then decoding the
resulting mask is the identity on every non-empty subset of the 7 named
weekdays (the decoder returns the subset's canonical monday→sunday
enumeration, so membership is preserved exactly and canonically-ordered
inputs round-trip verbatim), and `encode_weekdays(None)` yields the
everyday mask 0x7F; `encode_weekdays([])`, however, raises `ValueError`
rather than yielding 0x7F. -/
theorem weekday_mask_round_trip (days : List Weekday) (hne : days ≠ [])
    (hev : Weekday.everyday ∉ days) :
    ∃ m : Nat,
      encode_weekdays (some days) = .ok m ∧
      decode_pump_weekdays m = weekdayOrder.filter (fun w => w ∈ days) ∧
      (∀ w : Weekday, w ∈ decode_pump_weekdays m ↔ w ∈ days) ∧
      encode_weekdays none = .ok 0x7F ∧
      (∃ e, encode_weekdays (some []) = .error e) := by
  refine ⟨days.foldl (fun acc d => acc ||| weekdayBit d) 0, ?_, ?_, ?_, rfl, ⟨_, rfl⟩⟩
  · rw [show encode_weekdays (some days)
        = (if days.isEmpty = true then Except.error "Weekdays list cannot be empty"
           else if Weekday.everyday ∈ days then Except.ok 127
           else Except.ok (days.foldl (fun acc d => acc ||| weekdayBit d) 0))
      from rfl]
    rw [if_neg (by simpa using hne), if_neg hev]
  · have hmask0 : days.foldl (fun acc d => acc ||| weekdayBit d) 0 ≠ 0 := by
      obtain ⟨d, ds, rfl⟩ : ∃ d ds, days = d :: ds := by
        cases days
        · exact absurd rfl hne
        · exact ⟨_, _, rfl⟩
      intro h0
      have hd : d ≠ .everyday := fun h => hev (h ▸ List.mem_cons_self d ds)
      have := (mask_and_iff (d :: ds) hev d hd).mpr (List.mem_cons_self d ds)
      rw [h0] at this
      exact this (Nat.zero_and _)
    unfold decode_pump_weekdays
    rw [if_neg hmask0]
    apply List.filter_congr
    intro w hworder
    have hw : w ≠ .everyday := by
      intro h
      rw [h] at hworder
      exact absurd hworder (by decide)
    have := mask_and_iff days hev w hw
    rw [decide_eq_decide]
    exact this
  · intro w
    by_cases hw : w = .everyday
    · subst hw
      constructor
      · intro hmem
        unfold decode_pump_weekdays at hmem
        split_ifs at hmem
        · simp at hmem
        · have := List.mem_of_mem_filter hmem
          exact absurd this (by decide)
      · intro hmem
        exact absurd hmem hev
    · have hmem := mem_weekdayOrder w hw
      unfold decode_pump_weekdays
      have hmask0 : days.foldl (fun acc d => acc ||| weekdayBit d) 0 ≠ 0 := by
        obtain ⟨d, ds, rfl⟩ : ∃ d ds, days = d :: ds := by
          cases days
          · exact absurd rfl hne
          · exact ⟨_, _, rfl⟩
        intro h0
        have hd : d ≠ .everyday := fun h => hev (h ▸ List.mem_cons_self d ds)
        have := (mask_and_iff (d :: ds) hev d hd).mpr (List.mem_cons_self d ds)
        rw [h0] at this
        exact this (Nat.zero_and _)
      rw [if_neg hmask0]
      rw [List.mem_filter]
      constructor
      · rintro ⟨-, hpred⟩
        have hpred' := of_decide_eq_true hpred
        exact (mask_and_iff days hev w hw).mp hpred'
      · intro hdmem
        refine ⟨hmem, decide_eq_true ?_⟩
        exact (mask_and_iff days hev w hw).mpr hdmem

/-- C3 witness: the round-trip theorem applied to the concrete subset
monday, wednesday, friday. -/
theorem weekday_mask_round_trip_witness :
    ([Weekday.monday, Weekday.wednesday, Weekday.friday] ≠ ([] : List Weekday)) ∧
    Weekday.everyday ∉ [Weekday.monday, Weekday.wednesday, Weekday.friday] ∧
    ∃ m : Nat,
      encode_weekdays (some [Weekday.monday, Weekday.wednesday, Weekday.friday])
        = .ok m ∧
      decode_pump_weekdays m
        = weekdayOrder.filter
            (fun w => w ∈ [Weekday.monday, Weekday.wednesday, Weekday.friday]) ∧
      (∀ w : Weekday,
        w ∈ decode_pump_weekdays m
          ↔ w ∈ [Weekday.monday, Weekday.wednesday, Weekday.friday]) ∧
      encode_weekdays none = .ok 0x7F ∧
      (∃ e, encode_weekdays (some []) = .error e) :=
  ⟨by decide, by decide,
    weekday_mask_round_trip [Weekday.monday, Weekday.wednesday, Weekday.friday]
      (by decide) (by decide)⟩

theorem sanitizeByte_eq_self {b : Nat} (h : b ≠ 90) : sanitizeByte b = b := by
  unfold sanitizeByte
  split <;> omega

theorem create_handshake_ok {p : Nat × Nat} (hp : validMsgId p) :
    ∃ fr : List Nat, create_handshake_command p = .ok fr ∧
      fr.getD 0 0 = 0x5A ∧ fr.getD 5 0 = 0x04 := by
  obtain ⟨q, _, _, henc, _⟩ :=
    encode_ok 0x5A 0x04 p [0x01] (by omega) (by omega) hp
      (by intro b hb; simp at hb; omega) (by simp) (by simp)
  exact ⟨_, henc, by simp [frameCore, sanitizeByte],
    by simp [frameCore, sanitizeByte]⟩

theorem create_set_time_ok {p : Nat × Nat} (hp : validMsgId p) (ts : DeviceTime)
    (h1 : ts.yearOffset ≤ 255) (h2 : ts.month ≤ 255) (h3 : ts.isoweekday ≤ 255)
    (h4 : ts.hour ≤ 255) (h5 : ts.minute ≤ 255) (h6 : ts.second ≤ 255) :
    ∃ fr : List Nat, create_set_time_command p ts = .ok fr ∧
      fr.getD 0 0 = 90 ∧ fr.getD 5 0 = 9 := by
  obtain ⟨q, _, _, henc, _⟩ :=
    encode_ok 90 9 p (_encode_timestamp ts) (by omega) (by omega) hp
      (by
        intro b hb
        simp [_encode_timestamp] at hb
        rcases hb with rfl | rfl | rfl | rfl | rfl | rfl <;> omega)
      (by simp [_encode_timestamp]) (by simp [_encode_timestamp])
  exact ⟨_, henc, by simp [frameCore, _encode_timestamp],
    by simp [frameCore, _encode_timestamp]⟩

theorem create_prepare_ok {p : Nat × Nat} (hp : validMsgId p) {stage : Nat}
    (hstage : stage = 0x04 ∨ stage = 0x05) :
    ∃ fr : List Nat, create_prepare_command p stage = .ok fr ∧
      fr.getD 0 0 = 0xA5 ∧ fr.getD 5 0 = 0x04 ∧ fr.getD 6 0 = stage := by
  obtain ⟨q, _, _, henc, _⟩ :=
    encode_ok 0xA5 0x04 p [stage] (by omega) (by omega) hp
      (by intro b hb; simp at hb; omega) (by simp) (by simp)
  have hsan : sanitizeByte stage = stage := sanitizeByte_eq_self (by omega)
  have hbuild : create_prepare_command p stage
      = .ok (frameCore 0xA5 0x04 q [stage]
          ++ [xorFromIndex1 (frameCore 0xA5 0x04 q [stage])]) := by
    unfold create_prepare_command
    rw [if_neg (by omega)]
    exact henc
  exact ⟨_, hbuild, by simp [frameCore], by simp [frameCore],
    by simp [frameCore, hsan]⟩

theorem create_head_select_ok {p : Nat × Nat} (hp : validMsgId p) (head : Nat)
    (hhead : head ≤ 3) :
    ∃ fr : List Nat, create_head_select_command p head = .ok fr ∧
      fr.getD 0 0 = 0xA5 ∧ fr.getD 5 0 = 0x20 ∧ fr.getD 6 0 = head := by
  obtain ⟨q, _, _, henc, _⟩ :=
    encode_ok 0xA5 0x20 p [head, 0x00, 0x01] (by omega) (by omega) hp
      (by intro b hb; simp at hb; rcases hb with rfl | rfl | rfl <;> omega)
      (by simp) (by simp)
  have hsan : sanitizeByte head = head := sanitizeByte_eq_self (by omega)
  have hbuild : create_head_select_command p head
      = .ok (frameCore 0xA5 0x20 q [head, 0x00, 0x01]
          ++ [xorFromIndex1 (frameCore 0xA5 0x20 q [head, 0x00, 0x01])]) := by
    unfold create_head_select_command
    rw [if_neg (by omega)]
    exact henc
  exact ⟨_, hbuild, by simp [frameCore], by simp [frameCore],
    by simp [frameCore, hsan]⟩

theorem create_head_schedule_ok {p : Nat × Nat} (hp : validMsgId p)
    (head hour minute : Nat) (hhead : head ≤ 255) (hhr : hour ≤ 23)
    (hmin : minute ≤ 59) :
    ∃ fr : List Nat, create_head_schedule_command p head hour minute = .ok fr ∧
      fr.getD 0 0 = 0xA5 ∧ fr.getD 5 0 = 0x15 ∧
      fr.getD 8 0 = hour ∧ fr.getD 9 0 = minute := by
  obtain ⟨q, _, _, henc, _⟩ :=
    encode_ok 0xA5 0x15 p [head, 0x00, hour, minute, 0x00, 0x00]
      (by omega) (by omega) hp
      (by
        intro b hb
        simp at hb
        rcases hb with rfl | rfl | rfl | rfl | rfl | rfl <;> omega)
      (by simp) (by simp)
  have hsanh : sanitizeByte hour = hour := sanitizeByte_eq_self (by omega)
  have hsanm : sanitizeByte minute = minute := sanitizeByte_eq_self (by omega)
  have hbuild : create_head_schedule_command p head hour minute
      = .ok (frameCore 0xA5 0x15 q [head, 0x00, hour, minute, 0x00, 0x00]
          ++ [xorFromIndex1
            (frameCore 0xA5 0x15 q [head, 0x00, hour, minute, 0x00, 0x00])]) := by
    unfold create_head_schedule_command
    rw [if_neg (by omega), if_neg (by omega)]
    exact henc
  exact ⟨_, hbuild, by simp [frameCore], by simp [frameCore],
    by simp [frameCore, hsanh], by simp [frameCore, hsanm]⟩

theorem create_head_dose_legacy {p : Nat × Nat} (hp : validMsgId p)
    (head : Nat) (v : Int) (mask sm rf rs : Nat)
    (hhead : head ≤ 255) (hmask : mask ≤ 0x7F)
    (hsm : sm ≤ 255) (hrf : rf ≤ 255) (hrs : rs ≤ 255)
    (hv0 : 0 ≤ v) (hv : v ≤ 255) :
    ∃ fr : List Nat, create_head_dose_command p head v mask sm rf rs = .ok fr ∧
      fr.getD 0 0 = 0xA5 ∧ fr.getD 5 0 = 0x1B ∧ fr.length = 13 ∧
      fr.getD 7 0 = sanitizeByte mask ∧ fr.getD 11 0 = sanitizeByte v.toNat := by
  have hvn : v.toNat ≤ 255 := by omega
  obtain ⟨q, _, _, henc, _⟩ :=
    encode_ok 0xA5 0x1B p [head, mask, sm, rf, rs, v.toNat]
      (by omega) (by omega) hp
      (by
        intro b hb
        simp at hb
        rcases hb with rfl | rfl | rfl | rfl | rfl | rfl <;> omega)
      (by simp) (by simp)
  have hbuild : create_head_dose_command p head v mask sm rf rs
      = .ok (frameCore 0xA5 0x1B q [head, mask, sm, rf, rs, v.toNat]
          ++ [xorFromIndex1
            (frameCore 0xA5 0x1B q [head, mask, sm, rf, rs, v.toNat])]) := by
    unfold create_head_dose_command
    rw [if_neg (not_not_intro ⟨hv0, by omega⟩), if_neg (not_not_intro hmask)]
    dsimp only
    rw [if_pos hvn]
    exact henc
  exact ⟨_, hbuild, by simp [frameCore], by simp [frameCore],
    by simp [frameCore], by simp [frameCore], by simp [frameCore]⟩

theorem create_head_dose_twobyte {p : Nat × Nat} (hp : validMsgId p)
    (head : Nat) (v : Int) (mask sm rf rs : Nat)
    (hhead : head ≤ 255) (hmask : mask ≤ 0x7F)
    (hsm : sm ≤ 255) (hrf : rf ≤ 255) (hrs : rs ≤ 255)
    (hv0 : 256 ≤ v) (hv : v ≤ 65535) :
    ∃ fr : List Nat, create_head_dose_command p head v mask sm rf rs = .ok fr ∧
      fr.getD 0 0 = 0xA5 ∧ fr.getD 5 0 = 0x1C ∧ fr.length = 14 ∧
      fr.getD 7 0 = sanitizeByte mask ∧
      fr.getD 11 0 = sanitizeByte ((v.toNat >>> 8) &&& 0xFF) ∧
      fr.getD 12 0 = sanitizeByte (v.toNat &&& 0xFF) := by
  have hvn : ¬ v.toNat ≤ 255 := by omega
  obtain ⟨q, _, _, henc, _⟩ :=
    encode_ok 0xA5 0x1C p
      [head, mask, sm, rf, rs, (v.toNat >>> 8) &&& 0xFF, v.toNat &&& 0xFF]
      (by omega) (by omega) hp
      (by
        intro b hb
        simp at hb
        rcases hb with rfl | rfl | rfl | rfl | rfl | rfl | rfl
        · omega
        · omega
        · omega
        · omega
        · omega
        · exact Nat.and_le_right
        · exact Nat.and_le_right)
      (by simp) (by simp)
  have hbuild : create_head_dose_command p head v mask sm rf rs
      = .ok (frameCore 0xA5 0x1C q
            [head, mask, sm, rf, rs, (v.toNat >>> 8) &&& 0xFF, v.toNat &&& 0xFF]
          ++ [xorFromIndex1 (frameCore 0xA5 0x1C q
            [head, mask, sm, rf, rs, (v.toNat >>> 8) &&& 0xFF,
              v.toNat &&& 0xFF])]) := by
    unfold create_head_dose_command
    rw [if_neg (not_not_intro ⟨by omega, by omega⟩), if_neg (not_not_intro hmask)]
    dsimp only
    rw [if_neg hvn]
    exact henc
  exact ⟨_, hbuild, by simp [frameCore], by simp [frameCore], by simp [frameCore],
    by simp [frameCore], by simp [frameCore], by simp [frameCore]⟩

theorem create_head_dose_rejects {p : Nat × Nat} {head : Nat} {v : Int}
    {mask sm rf rs : Nat} (hout : v < 0 ∨ 65535 < v) :
    ∃ e, create_head_dose_command p head v mask sm rf rs = .error e := by
  unfold create_head_dose_command
  rw [if_pos (by omega)]
  exact ⟨_, rfl⟩

/-! ## C4 -/

/-- C4: the head-dose frame builder uses the legacy single-byte volume
field with mode byte 0x1B for every volume 0..255 tenths of mL, a 2-byte
big-endian volume field with the distinct mode byte 0x1C for 256..65535,
and rejects every volume outside 0..65535 with `ValueError`; the boundary
instances 255 (single-byte) and 256 (high byte 1, low byte 0) are in the
witness. -/
theorem head_dose_volume_boundary (p : Nat × Nat) (head : Nat) (v : Int)
    (mask sm rf rs : Nat) (hp : validMsgId p) (hhead : head ≤ 255)
    (hmask : mask ≤ 0x7F) (hsm : sm ≤ 255) (hrf : rf ≤ 255) (hrs : rs ≤ 255) :
    (0 ≤ v → v ≤ 255 →
      ∃ fr : List Nat, create_head_dose_command p head v mask sm rf rs = .ok fr ∧
        fr.getD 5 0 = 0x1B ∧ fr.length = 13 ∧
        fr.getD 11 0 = sanitizeByte v.toNat) ∧
    (256 ≤ v → v ≤ 65535 →
      ∃ fr : List Nat, create_head_dose_command p head v mask sm rf rs = .ok fr ∧
        fr.getD 5 0 = 0x1C ∧ fr.length = 14 ∧
        fr.getD 11 0 = sanitizeByte ((v.toNat >>> 8) &&& 0xFF) ∧
        fr.getD 12 0 = sanitizeByte (v.toNat &&& 0xFF)) ∧
    ((v < 0 ∨ 65535 < v) →
      ∃ e, create_head_dose_command p head v mask sm rf rs = .error e) := by
  refine ⟨fun h1 h2 => ?_, fun h1 h2 => ?_, fun h => create_head_dose_rejects h⟩
  · obtain ⟨fr, henc, _, hmode, hlen, _, hvol⟩ :=
      create_head_dose_legacy hp head v mask sm rf rs hhead hmask hsm hrf hrs h1 h2
    exact ⟨fr, henc, hmode, hlen, hvol⟩
  · obtain ⟨fr, henc, _, hmode, hlen, _, hhi, hlo⟩ :=
      create_head_dose_twobyte hp head v mask sm rf rs hhead hmask hsm hrf hrs h1 h2
    exact ⟨fr, henc, hmode, hlen, hhi, hlo⟩

/-- C4 witness: the boundary theorem applied at message id (0, 1), head 0,
weekday mask 0x54, with the concrete boundary frames at volume 255
(single-byte field 255, mode 0x1B) and volume 256 (mode 0x1C, high byte 1,
low byte 0) checked by evaluation. -/
theorem head_dose_volume_boundary_witness :
    validMsgId (0, 1) ∧
    (((0:Int) ≤ 255 → (255:Int) ≤ 255 →
      ∃ fr : List Nat, create_head_dose_command (0, 1) 0 255 0x54 1 1 0 = .ok fr ∧
        fr.getD 5 0 = 0x1B ∧ fr.length = 13 ∧
        fr.getD 11 0 = sanitizeByte (255:Int).toNat) ∧
    ((256:Int) ≤ 255 → (255:Int) ≤ 65535 →
      ∃ fr : List Nat, create_head_dose_command (0, 1) 0 255 0x54 1 1 0 = .ok fr ∧
        fr.getD 5 0 = 0x1C ∧ fr.length = 14 ∧
        fr.getD 11 0 = sanitizeByte (((255:Int).toNat >>> 8) &&& 0xFF) ∧
        fr.getD 12 0 = sanitizeByte ((255:Int).toNat &&& 0xFF)) ∧
    (((255:Int) < 0 ∨ 65535 < (255:Int)) →
      ∃ e, create_head_dose_command (0, 1) 0 255 0x54 1 1 0 = .error e)) ∧
    create_head_dose_command (0, 1) 0 255 0x54 1 1 0
      = .ok [0xA5, 1, 11, 0, 1, 0x1B, 0, 0x54, 1, 1, 0, 255, 187] ∧
    create_head_dose_command (0, 1) 0 256 0x54 1 1 0
      = .ok [0xA5, 1, 12, 0, 1, 0x1C, 0, 0x54, 1, 1, 0, 1, 0, 69] :=
  ⟨by decide,
   head_dose_volume_boundary (0, 1) 0 255 0x54 1 1 0 (by decide) (by decide)
     (by decide) (by decide) (by decide) (by decide),
   by rfl, by rfl⟩

theorem weekdayBit_le_127 : ∀ w : Weekday, weekdayBit w ≤ 127 := by decide

theorem foldl_or_le_127 (l : List Weekday) :
    l.foldl (fun acc d => acc ||| weekdayBit d) 0 ≤ 127 := by
  induction l with
  | nil => simp
  | cons d ds ih =>
    simp only [List.foldl_cons]
    rw [foldl_or_shift, Nat.zero_or]
    have h1 : weekdayBit d < 2 ^ 7 := by
      have := weekdayBit_le_127 d
      omega
    have h2 : ds.foldl (fun acc d => acc ||| weekdayBit d) 0 < 2 ^ 7 := by omega
    have := Nat.or_lt_two_pow h1 h2
    omega

theorem encode_weekdays_le_127 {days : Option (List Weekday)} {m : Nat}
    (h : encode_weekdays days = .ok m) : m ≤ 127 := by
  match days with
  | none =>
    have h' : (Except.ok 127 : Except String Nat) = .ok m := h
    injection h' with h2
    omega
  | some l =>
    have h' : (if l.isEmpty = true
          then (Except.error "Weekdays list cannot be empty" : Except String Nat)
          else if Weekday.everyday ∈ l then .ok 127
          else .ok (l.foldl (fun acc d => acc ||| weekdayBit d) 0)) = .ok m := h
    split_ifs at h'
    · injection h' with h2
      omega
    · injection h' with h2
      have := foldl_or_le_127 l
      omega

theorem sendSequentially_all_ok {α : Type} (ok : Nat → Bool) (l : List α) (s : Nat)
    (h : ∀ i, i < l.length → ok (s + i) = true) :
    sendSequentially ok s l = l := by
  induction l generalizing s with
  | nil => rfl
  | cons f fs ih =>
    rw [sendSequentially, if_pos (by simpa using h 0 (by simp))]
    congr 1
    refine ih (s + 1) fun i hi => ?_
    have := h (i + 1) (by simpa using hi)
    rw [show s + 1 + i = s + (i + 1) from by omega]
    exact this

theorem sendSequentially_abort {α : Type} (ok : Nat → Bool) (l : List α) (s j : Nat)
    (hj : j < l.length) (hfail : ok (s + j) = false)
    (hok : ∀ i, i < j → ok (s + i) = true) :
    sendSequentially ok s l = l.take (j + 1) := by
  induction l generalizing s j with
  | nil => simp at hj
  | cons f fs ih =>
    cases j with
    | zero =>
      rw [sendSequentially, if_neg (by simpa using hfail)]
      simp
    | succ j =>
      rw [sendSequentially, if_pos (by simpa using hok 0 (by omega))]
      rw [List.take_succ_cons]
      congr 1
      refine ih (s + 1) j (by simpa using hj) ?_ fun i hi => ?_
      · rw [show s + 1 + j = s + (j + 1) from by omega]
        exact hfail
      · rw [show s + 1 + i = s + (i + 1) from by omega]
        exact hok (i + 1) (by omega)

theorem get_next_msg_id_ok {q : Nat × Nat} (hq : validMsgId q) :
    get_next_msg_id q = .ok (nextMsgIdTotal q, nextMsgIdTotal q) := by
  unfold get_next_msg_id
  rw [next_message_id_ok hq]
  rfl

/-! ## C6 -/

/-- C6: every invocation of the doser's daily-dose configuration builds
exactly 8 frames in the fixed order handshake (0x5A/0x04), time-sync
(0x5A/0x09) twice, prepare stage 0x04 and stage 0x05 (0xA5/0x04),
head-select (0xA5/0x20), head-dose (0xA5/0x1B) carrying the weekday mask
and — for volumes ≤ 255 — the single-byte volume field, and head-schedule
(0xA5/0x15) carrying the hour and minute; sequential transmission sends
them in exactly that order, and a failure while sending the j-th frame
aborts the remainder (only the first j+1 frames are ever attempted). -/
theorem set_daily_dose_sequence (st : Nat × Nat) (now : DeviceTime)
    (head_index : Nat) (v : Int) (hour minute : Nat)
    (days : Option (List Weekday)) (mask : Nat) (hst : validMsgId st)
    (hy : now.yearOffset ≤ 255) (hmo : now.month ≤ 255)
    (hwd : now.isoweekday ≤ 255) (hth : now.hour ≤ 255)
    (htm : now.minute ≤ 255) (htsec : now.second ≤ 255)
    (hhead1 : 1 ≤ head_index) (hhead4 : head_index ≤ 4)
    (hv0 : 0 ≤ v) (hv : v ≤ 255) (hhr : hour ≤ 23) (hmin : minute ≤ 59)
    (hmask : encode_weekdays days = .ok mask) :
    ∃ f1 f2 f3 f4 f5 f6 f7 f8 : List Nat,
      set_daily_dose st now head_index v hour minute days
        = .ok [f1, f2, f3, f4, f5, f6, f7, f8] ∧
      (f1.getD 0 0 = 0x5A ∧ f1.getD 5 0 = 0x04) ∧
      (f2.getD 0 0 = 0x5A ∧ f2.getD 5 0 = 0x09) ∧
      (f3.getD 0 0 = 0x5A ∧ f3.getD 5 0 = 0x09) ∧
      (f4.getD 0 0 = 0xA5 ∧ f4.getD 5 0 = 0x04 ∧ f4.getD 6 0 = 0x04) ∧
      (f5.getD 0 0 = 0xA5 ∧ f5.getD 5 0 = 0x04 ∧ f5.getD 6 0 = 0x05) ∧
      (f6.getD 0 0 = 0xA5 ∧ f6.getD 5 0 = 0x20 ∧ f6.getD 6 0 = head_index - 1) ∧
      (f7.getD 0 0 = 0xA5 ∧ f7.getD 5 0 = 0x1B ∧ f7.length = 13 ∧
        f7.getD 7 0 = sanitizeByte mask ∧ f7.getD 11 0 = sanitizeByte v.toNat) ∧
      (f8.getD 0 0 = 0xA5 ∧ f8.getD 5 0 = 0x15 ∧
        f8.getD 8 0 = hour ∧ f8.getD 9 0 = minute) ∧
      (∀ ok : Nat → Bool, (∀ i, i < 8 → ok i = true) →
        sendSequentially ok 0 [f1, f2, f3, f4, f5, f6, f7, f8]
          = [f1, f2, f3, f4, f5, f6, f7, f8]) ∧
      (∀ (ok : Nat → Bool) (j : Nat), j < 8 → ok j = false →
        (∀ i, i < j → ok i = true) →
        sendSequentially ok 0 [f1, f2, f3, f4, f5, f6, f7, f8]
          = [f1, f2, f3, f4, f5, f6, f7, f8].take (j + 1)) := by
  have hmask127 : mask ≤ 127 := encode_weekdays_le_127 hmask
  have hble : head_index - 1 ≤ 3 := by omega
  have hv1 : validMsgId (nextMsgIdTotal st) := validMsgId_nextTotal hst
  have hv2 : validMsgId (nextMsgIdTotal (nextMsgIdTotal st)) := validMsgId_nextTotal hv1
  have hv3 := validMsgId_nextTotal hv2
  have hv4 := validMsgId_nextTotal hv3
  have hv5 := validMsgId_nextTotal hv4
  have hv6 := validMsgId_nextTotal hv5
  have hv7 := validMsgId_nextTotal hv6
  obtain ⟨f1, hf1e, hf1a, hf1b⟩ := create_handshake_ok hv1
  obtain ⟨f2, hf2e, hf2a, hf2b⟩ := create_set_time_ok hv2 now hy hmo hwd hth htm htsec
  obtain ⟨f3, hf3e, hf3a, hf3b⟩ := create_set_time_ok hv3 now hy hmo hwd hth htm htsec
  obtain ⟨f4, hf4e, hf4a, hf4b, hf4c⟩ := create_prepare_ok hv4 (Or.inl rfl)
  obtain ⟨f5, hf5e, hf5a, hf5b, hf5c⟩ := create_prepare_ok hv5 (Or.inr rfl)
  obtain ⟨f6, hf6e, hf6a, hf6b, hf6c⟩ := create_head_select_ok hv6 (head_index - 1) hble
  obtain ⟨f7, hf7e, hf7a, hf7b, hf7len, hf7mask, hf7vol⟩ :=
    create_head_dose_legacy hv7 (head_index - 1) v mask 1 1 0
      (by omega) hmask127 (by omega) (by omega) (by omega) hv0 hv
  have hv8 := validMsgId_nextTotal hv7
  obtain ⟨f8, hf8e, hf8a, hf8b, hf8c, hf8d⟩ :=
    create_head_schedule_ok hv8 (head_index - 1) hour minute (by omega) hhr hmin
  refine ⟨f1, f2, f3, f4, f5, f6, f7, f8, ?_, ⟨hf1a, hf1b⟩, ⟨hf2a, hf2b⟩,
    ⟨hf3a, hf3b⟩, ⟨hf4a, hf4b, hf4c⟩, ⟨hf5a, hf5b, hf5c⟩, ⟨hf6a, hf6b, hf6c⟩,
    ⟨hf7a, hf7b, hf7len, hf7mask, hf7vol⟩, ⟨hf8a, hf8b, hf8c, hf8d⟩, ?_, ?_⟩
  · simp only [set_daily_dose, hmask, bind, Except.bind,
      get_next_msg_id_ok hst, get_next_msg_id_ok hv1, get_next_msg_id_ok hv2,
      get_next_msg_id_ok hv3, get_next_msg_id_ok hv4, get_next_msg_id_ok hv5,
      get_next_msg_id_ok hv6, get_next_msg_id_ok hv7,
      hf1e, hf2e, hf3e, hf4e, hf5e, hf6e, hf7e, hf8e]
    rfl
  · intro ok hok
    exact sendSequentially_all_ok ok _ 0 fun i hi => by
      rw [Nat.zero_add]
      exact hok i (by simpa using hi)
  · intro ok j hj hfail hok
    exact sendSequentially_abort ok _ 0 j (by simpa using hj)
      (by rw [Nat.zero_add]; exact hfail)
      fun i hi => by rw [Nat.zero_add]; exact hok i hi

/-- C6 witness: the sequence theorem at the concrete scenario — doser head
1, 5.5 mL (55 tenths) at 10:30 on monday, wednesday, friday — together
with the full evaluated 8-frame transcript, whose final two frames carry
weekday mask 0x54 and the single-byte volume field 55. -/
theorem set_daily_dose_sequence_witness :
    validMsgId (0, 1) ∧
    encode_weekdays (some [Weekday.monday, Weekday.wednesday, Weekday.friday])
      = .ok 0x54 ∧
    (∃ f1 f2 f3 f4 f5 f6 f7 f8 : List Nat,
      set_daily_dose (0, 1) ⟨25, 10, 7, 10, 30, 0⟩ 1 55 10 30
          (some [Weekday.monday, Weekday.wednesday, Weekday.friday])
        = .ok [f1, f2, f3, f4, f5, f6, f7, f8] ∧
      (f1.getD 0 0 = 0x5A ∧ f1.getD 5 0 = 0x04) ∧
      (f2.getD 0 0 = 0x5A ∧ f2.getD 5 0 = 0x09) ∧
      (f3.getD 0 0 = 0x5A ∧ f3.getD 5 0 = 0x09) ∧
      (f4.getD 0 0 = 0xA5 ∧ f4.getD 5 0 = 0x04 ∧ f4.getD 6 0 = 0x04) ∧
      (f5.getD 0 0 = 0xA5 ∧ f5.getD 5 0 = 0x04 ∧ f5.getD 6 0 = 0x05) ∧
      (f6.getD 0 0 = 0xA5 ∧ f6.getD 5 0 = 0x20 ∧ f6.getD 6 0 = 1 - 1) ∧
      (f7.getD 0 0 = 0xA5 ∧ f7.getD 5 0 = 0x1B ∧ f7.length = 13 ∧
        f7.getD 7 0 = sanitizeByte 0x54 ∧
        f7.getD 11 0 = sanitizeByte (55 : Int).toNat) ∧
      (f8.getD 0 0 = 0xA5 ∧ f8.getD 5 0 = 0x15 ∧
        f8.getD 8 0 = 10 ∧ f8.getD 9 0 = 30) ∧
      (∀ ok : Nat → Bool, (∀ i, i < 8 → ok i = true) →
        sendSequentially ok 0 [f1, f2, f3, f4, f5, f6, f7, f8]
          = [f1, f2, f3, f4, f5, f6, f7, f8]) ∧
      (∀ (ok : Nat → Bool) (j : Nat), j < 8 → ok j = false →
        (∀ i, i < j → ok i = true) →
        sendSequentially ok 0 [f1, f2, f3, f4, f5, f6, f7, f8]
          = [f1, f2, f3, f4, f5, f6, f7, f8].take (j + 1))) ∧
    set_daily_dose (0, 1) ⟨25, 10, 7, 10, 30, 0⟩ 1 55 10 30
        (some [Weekday.monday, Weekday.wednesday, Weekday.friday])
      = .ok [[0x5A, 1, 6, 0, 2, 4, 1, 0],
             [0x5A, 1, 11, 0, 3, 9, 25, 10, 7, 10, 30, 0, 0],
             [0x5A, 1, 11, 0, 4, 9, 25, 10, 7, 10, 30, 0, 7],
             [0xA5, 1, 6, 0, 5, 4, 4, 2],
             [0xA5, 1, 6, 0, 6, 4, 5, 0],
             [0xA5, 1, 8, 0, 7, 0x20, 0, 0, 1, 47],
             [0xA5, 1, 11, 0, 8, 0x1B, 0, 0x54, 1, 1, 0, 55, 122],
             [0xA5, 1, 11, 0, 9, 0x15, 0, 0, 10, 30, 0, 0, 2]] :=
  ⟨by decide, by rfl,
   set_daily_dose_sequence (0, 1) ⟨25, 10, 7, 10, 30, 0⟩ 1 55 10 30
     (some [Weekday.monday, Weekday.wednesday, Weekday.friday]) 0x54
     (by decide) (by decide) (by decide) (by decide) (by decide) (by decide)
     (by decide) (by decide) (by decide) (by decide) (by decide) (by decide)
     (by decide) (by rfl),
   by rfl⟩

theorem scanBody_sorted (hm : Option Nat × Option Nat) (last : Option Nat)
    (bs : List Nat) :
    List.Chain' (fun a b => keyframeMinutes a ≤ keyframeMinutes b)
      (scanBody hm last bs).keyframes ∧
    (∀ k ∈ (scanBody hm last bs).keyframes, ∀ t, last = some t →
      t ≤ keyframeMinutes k) := by
  induction hm, last, bs using scanBody.induct with
  | case1 hm last c d rest ih =>
    rw [scanBody.eq_1]
    exact ih
  | case2 hm last h m v rest hne hzero ih =>
    rw [scanBody.eq_2 hm last h m v rest hne]
    simp only [if_pos hzero]
    exact ih
  | case3 hm last h m v rest hne hzero hoo =>
    rw [scanBody.eq_2 hm last h m v rest hne]
    simp only [if_neg hzero, if_pos hoo]
    exact ⟨List.chain'_nil, by simp⟩
  | case4 hm last h m v rest hne hzero hoo ih =>
    rw [scanBody.eq_2 hm last h m v rest hne]
    simp only [if_neg hzero, if_neg hoo]
    constructor
    · refine List.chain'_cons'.mpr ⟨fun y hy => ?_, ih.1⟩
      have hymem : y ∈ (scanBody (some h, some m) (some (h * 60 + m)) rest).keyframes :=
        List.mem_of_mem_head? hy
      exact ih.2 y hymem (h * 60 + m) rfl
    · intro k hk t hlast
      have hle : t ≤ h * 60 + m := by
        subst hlast
        unfold outOfOrder at hoo
        simp only [Bool.not_eq_true] at hoo
        simp only [decide_eq_false_iff_not] at hoo
        omega
      rcases List.mem_cons.mp hk with rfl | hk2
      · exact hle
      · exact le_trans hle (ih.2 k hk2 (h * 60 + m) rfl)
  | case5 t hm last h1 h2 =>
    rw [scanBody.eq_3 hm last t h1 h2]
    exact ⟨List.chain'_nil, by simp⟩

/-! ## C7 -/

/-- C7 counterexample: a mode-0xFE light notification whose header triple
(1, 2, 3) reoccurs at the start of the body.  The source decoder also
strips everything up to and including that echo before scanning, so it
returns only the keyframe (4, 5, 6), while the claim's scan of the
header/tail-stripped body returns (1, 2, 3) then (4, 5, 6) — the claim's
description of the scanned body is refuted at this input. -/
theorem light_scan_echo_counterexample :
    (([0x5B, 0, 0, 7, 8, 0xFE, 1, 2, 3]
        ++ [1, 2, 3, 4, 5, 6] ++ [0, 0, 0, 0, 0] : List Nat).getD 5 0 = 0xFE) ∧
    (parse_light_payload ([0x5B, 0, 0, 7, 8, 0xFE, 1, 2, 3]
        ++ [1, 2, 3, 4, 5, 6] ++ [0, 0, 0, 0, 0])).keyframes
      = [{ hour := 4, minute := 5, value := 6 }] ∧
    claimLightKeyframes ([0x5B, 0, 0, 7, 8, 0xFE, 1, 2, 3]
        ++ [1, 2, 3, 4, 5, 6] ++ [0, 0, 0, 0, 0])
      = [{ hour := 1, minute := 2, value := 3 }, { hour := 4, minute := 5, value := 6 }] ∧
    (parse_light_payload ([0x5B, 0, 0, 7, 8, 0xFE, 1, 2, 3]
        ++ [1, 2, 3, 4, 5, 6] ++ [0, 0, 0, 0, 0])).keyframes
      ≠ claimLightKeyframes ([0x5B, 0, 0, 7, 8, 0xFE, 1, 2, 3]
        ++ [1, 2, 3, 4, 5, 6] ++ [0, 0, 0, 0, 0]) := by
  refine ⟨rfl, rfl, rfl, ?_⟩
  decide

/-- C7 amended: the light decoder scans the header/tail-stripped body with
the claim's left-to-right loop (3-byte keyframes; 4-byte `0x00 0x02` time
markers; all-zero triples skipped as padding; scan terminated at the first
keyframe earlier than its predecessor) — except that when the header's
(weekday, hour, minute) triple reoccurs within the first 17 bytes of the
body, the bytes up to and including that first echo are stripped first.
Whenever no such early echo exists the decoder agrees with the claim's
scan exactly, and on every payload whatsoever the returned keyframe list
is non-decreasing in time-of-day. -/
theorem light_scan_behavior (payload : List Nat)
    (hecho : ∀ wd hr mi : Nat, (_split_body payload).weekday = some wd →
      (_split_body payload).hour = some hr →
      (_split_body payload).minute = some mi →
      (match findSub [wd, hr, mi] (lightBodyPreTail payload) with
        | some i => 16 < i
        | none => True)) :
    (parse_light_payload payload).keyframes = claimLightKeyframes payload ∧
    ∀ q : List Nat,
      List.Chain' (fun a b => keyframeMinutes a ≤ keyframeMinutes b)
        (parse_light_payload q).keyframes := by
  constructor
  · have hbs : lightScanBody payload = lightBodyPreTail payload := by
      unfold lightScanBody
      dsimp only
      split
      · rename_i wd hr mi hw hh hmq
        split_ifs with h3
        · cases hfind : findSub [wd, hr, mi] (lightBodyPreTail payload) with
          | none => rfl
          | some idx =>
            have h16 := hecho wd hr mi hw hh hmq
            rw [hfind] at h16
            dsimp only at h16 ⊢
            rw [if_neg (by omega)]
        · rfl
      · rfl
    show (scanBody ((_split_body payload).hour, (_split_body payload).minute)
        none (lightScanBody payload)).keyframes = _
    rw [hbs]
    rfl
  · intro q
    exact (scanBody_sorted ((_split_body q).hour, (_split_body q).minute)
      none (lightScanBody q)).1

/-- C7 witness: the amended theorem at a concrete mode-0xFE payload with
no header echo in the body (header triple (9, 9, 9), body keyframes
(4, 5, 6) and (6, 0, 10)). -/
theorem light_scan_behavior_witness :
    (parse_light_payload ([0x5B, 0, 0, 7, 8, 0xFE, 9, 9, 9]
        ++ [4, 5, 6, 6, 0, 10] ++ [0, 0, 0, 0, 0])).keyframes
      = claimLightKeyframes ([0x5B, 0, 0, 7, 8, 0xFE, 9, 9, 9]
        ++ [4, 5, 6, 6, 0, 10] ++ [0, 0, 0, 0, 0]) ∧
    List.Chain' (fun a b => keyframeMinutes a ≤ keyframeMinutes b)
      (parse_light_payload ([0x5B, 0, 0, 7, 8, 0xFE, 9, 9, 9]
        ++ [4, 5, 6, 6, 0, 10] ++ [0, 0, 0, 0, 0])).keyframes := by
  have h := light_scan_behavior ([0x5B, 0, 0, 7, 8, 0xFE, 9, 9, 9]
      ++ [4, 5, 6, 6, 0, 10] ++ [0, 0, 0, 0, 0])
    (by
      intro wd hr mi hw hh hmq
      have hw' : (some 9 : Option Nat) = some wd :=
        (show (_split_body ([0x5B, 0, 0, 7, 8, 0xFE, 9, 9, 9]
          ++ [4, 5, 6, 6, 0, 10] ++ [0, 0, 0, 0, 0])).weekday = some 9
          from rfl).symm.trans hw
      have hh' : (some 9 : Option Nat) = some hr :=
        (show (_split_body ([0x5B, 0, 0, 7, 8, 0xFE, 9, 9, 9]
          ++ [4, 5, 6, 6, 0, 10] ++ [0, 0, 0, 0, 0])).hour = some 9
          from rfl).symm.trans hh
      have hm' : (some 9 : Option Nat) = some mi :=
        (show (_split_body ([0x5B, 0, 0, 7, 8, 0xFE, 9, 9, 9]
          ++ [4, 5, 6, 6, 0, 10] ++ [0, 0, 0, 0, 0])).minute = some 9
          from rfl).symm.trans hmq
      injection hw' with hw2
      injection hh' with hh2
      injection hm' with hm2
      subst hw2
      subst hh2
      subst hm2
      exact trivial)
  exact ⟨h.1, h.2 _⟩

/-! ## C10 -/

/-- C10: for every message id, sunrise/sunset time, ramp value and weekday
mask, `create_delete_auto_setting_command` raises `ValueError` and never
returns a frame: it delegates to `create_add_auto_setting_command` with
brightness tuple (255, 255, 255), which rejects brightness values outside
0..100 before encoding anything. -/
theorem delete_auto_setting_always_rejected (msg_id : Nat × Nat)
    (sunrise sunset : Nat × Nat) (ramp_up_minutes weekdays : Nat) :
    ∃ e, create_delete_auto_setting_command msg_id sunrise sunset
      ramp_up_minutes weekdays = .error e := by
  refine ⟨"Brightness value must be 0-100", ?_⟩
  simp [create_delete_auto_setting_command, create_add_auto_setting_command]

/-! ## C8 -/

/-- C8: a command request that fails argument validation yields a record
that went directly from pending to failed with error kind
`validation_error`, never entering the started state; no lock is acquired
and the device is never touched (the post-validation event list is
empty). -/
theorem validation_failure_fails_before_lock (msg : String) (outcome : ActionOutcome) :
    (execute_command (.error msg) outcome).1.statusHistory
        = [CmdStatus.pending, CmdStatus.failed] ∧
    (execute_command (.error msg) outcome).1.error_kind = some .validation_error ∧
    CmdStatus.started ∉ (execute_command (.error msg) outcome).1.statusHistory ∧
    (execute_command (.error msg) outcome).2 = [] ∧
    ExecEvent.acquireLock ∉ (execute_command (.error msg) outcome).2 ∧
    ExecEvent.deviceAction ∉ (execute_command (.error msg) outcome).2 := by
  simp [execute_command, CommandRecord.create, CommandRecord.mark_failed]

/-! ## C9 -/

/-- C9 counterexample: in a run of `_ensure_device` with no cached handle
whose first radio resolution attempt happens (and succeeds), that
resolution attempt is executed with the registry creation lock held —
refuting the claim that the lock is not held during the retried radio
connection resolution. -/
theorem ensure_device_lock_held_during_resolve :
    (RegEvent.resolveAttempt 0, true) ∈ ensure_device_trace false (fun _ => true) := by
  decide

/-- C9 amended: the creation lock of the connection registry is held
across the entire body of `_ensure_device` — the cache check, every radio
resolution attempt with its backoff sleeps, and the handle insertion — so
a slow resolution does serialize other `_ensure_device` calls behind it. -/
theorem ensure_device_lock_held_throughout (cached : Bool)
    (resolveOk : Nat → Bool) (ev : RegEvent × Bool)
    (hmem : ev ∈ ensure_device_trace cached resolveOk) : ev.2 = true := by
  simp only [ensure_device_trace, List.mem_map] at hmem
  obtain ⟨e, _, rfl⟩ := hmem
  rfl

/-- C9 witness: the amended theorem applied to the concrete uncached,
always-failing run, at its cache-check event. -/
theorem ensure_device_lock_held_throughout_witness :
    (RegEvent.cacheCheck, true) ∈ ensure_device_trace false (fun _ => false) ∧
    ((RegEvent.cacheCheck, true) : RegEvent × Bool).2 = true :=
  ⟨by decide, ensure_device_lock_held_throughout false (fun _ => false) _ (by decide)⟩

/-! ## C5 -/

/-- C5 counterexample: feeding the doser notification handler the
truncated payload `[0x5B, 0, 0]` produces no status object at all — the
cached status stays `none` — refuting the claim that the caller receives
a minimal status object whose only populated field is `raw_payload`. -/
theorem handle_notification_truncated_produces_nothing :
    handle_notification none [0x5B, 0, 0] = none ∧
    ¬∃ s : DoserStatus, handle_notification none [0x5B, 0, 0] = some s ∧
      s.raw_payload = [0x5B, 0, 0] := by
  refine ⟨rfl, ?_⟩
  rintro ⟨s, hs, -⟩
  rw [show handle_notification none [0x5B, 0, 0] = none from rfl] at hs
  exact Option.noConfusion hs

/-- C5 amended: the doser status decoder never raises past its boundary —
`parse_doser_payload` rejects every truncated or non-0x5B-prefixed
payload with an error, `Doser.handle_notification` swallows it, and the
malformed notification is discarded with the cached status left unchanged
(no status object is produced). -/
theorem doser_decoder_robust (st : Option DoserStatus) (payload : List Nat)
    (hbad : payload.length < 6 ∨ payload.getD 0 0 ≠ 0x5B) :
    handle_notification st payload = st ∧
    ∃ e, parse_doser_payload payload = .error e := by
  constructor
  · unfold handle_notification
    split_ifs with h1 h2
    · rfl
    · rfl
    · exfalso
      rcases hbad with h | h
      · rcases payload with _ | ⟨b, rest⟩
        · exact h1 rfl
        · exact h2 (Or.inr h)
      · rcases payload with _ | ⟨b, rest⟩
        · exact h1 rfl
        · exact h2 (Or.inl h)
  · unfold parse_doser_payload _parse_status_payload _parse_lifetime_payload
    dsimp only
    split_ifs <;> first
      | exact ⟨_, rfl⟩
      | (exfalso
         rcases hbad with h | h
         · omega
         · simp_all [List.getD])

/-- C5 witness: the amended theorem applied to the concrete truncated
payload `[0x5B, 0, 0]`. -/
theorem doser_decoder_robust_witness :
    (([0x5B, 0, 0] : List Nat).length < 6 ∨ ([0x5B, 0, 0] : List Nat).getD 0 0 ≠ 0x5B) ∧
    (handle_notification none [0x5B, 0, 0] = none ∧
      ∃ e, parse_doser_payload [0x5B, 0, 0] = .error e) :=
  ⟨by decide, doser_decoder_robust none [0x5B, 0, 0] (by decide)⟩

end AquaBle
